import Mathlib

/-!
Verification model of the `x-ai-trends-digest` repository.

The definitions below are a shallow embedding of the pure data
transformations of `scripts/fetch_x_trends.py` and
`scripts/publish_wechat_article.py`.  Python strings are modelled as Lean
`String`s manipulated through their `data : List Char`; Python's falsy
test on `None`/`""` is `pyTruthy`; Python's stable `list.sort(key=…,
reverse=True)` is modelled with `List.insertionSort` (a stable sort)
under the reversed key order.  Network and file I/O are not modelled:
functions are stated over the already-fetched payloads and the lists of
lines of the configuration files.
-/

/-- Python truthiness of an optional string: `None` and `""` are falsy;
the result is the value itself when truthy, else `none`. -/
def pyTruthy : Option String → Option String
  | none => none
  | some s => if s = "" then none else some s

/-- Python `a or b` for an optional string `a` and fallback `b`. -/
def pyOr (a b : Option String) : Option String :=
  match pyTruthy a with
  | some s => some s
  | none => b

/-- Python `a or d` where the fallback is a plain string (e.g. `""`). -/
def pyOrDefault (a : Option String) (d : String) : String :=
  (pyTruthy a).getD d

/-- ASCII lower-casing of one character (Python `str.lower` on the
ASCII fragment relevant to this repository). -/
def pyLowerChar (c : Char) : Char :=
  if 65 ≤ c.toNat ∧ c.toNat ≤ 90 then Char.ofNat (c.toNat + 32) else c

/-- Python `s.lower()`. -/
def pyLower (s : String) : String := ⟨s.data.map pyLowerChar⟩

/-- Python `needle in hay` on strings: substring containment. -/
def pyContains (hay needle : String) : Prop := needle.data <:+: hay.data

instance (hay needle : String) : Decidable (pyContains hay needle) :=
  List.decidableInfix needle.data hay.data

/-- The whitespace characters stripped by Python `str.strip()`. -/
def pyIsSpace (c : Char) : Bool :=
  c = ' ' || c = '\t' || c = '\n' || c = '\r' || c = '\x0b' || c = '\x0c'

/-- Python `s.strip()`: drop leading and trailing whitespace. -/
def pyStrip (s : String) : String :=
  ⟨((s.data.dropWhile pyIsSpace).reverse.dropWhile pyIsSpace).reverse⟩

/-- Python `s.startswith("#")`. -/
def startsWithHash (s : String) : Bool :=
  match s.data with
  | '#' :: _ => true
  | _ => false

/-- One normalized content record, the `dict` built by
`fetch_x_trends.py` (fields that stay `None` for some sources are
`Option`s; `author` is always set by the code). -/
structure Item where
  id : Option String
  text : Option String
  author : String
  username : Option String
  url : Option String
  created_at : Option String
  engagement_score : Nat
  source : Option String
deriving DecidableEq, Repr

/-- The deduplication key of `_dedupe`:
`item.get("url") or item.get("id") or item.get("text")`, normalized to
`none` when the result is falsy (the `if not key` guard). -/
def itemKey (i : Item) : Option String :=
  pyTruthy (pyOr i.url (pyOr i.id i.text))

/-- The loop body of `_dedupe`, with the `seen` set as a list of keys. -/
def dedupeAux (seen : List String) : List Item → List Item
  | [] => []
  | i :: rest =>
    match itemKey i with
    | none => dedupeAux seen rest
    | some k =>
      if k ∈ seen then dedupeAux seen rest
      else i :: dedupeAux (k :: seen) rest

/-- `_dedupe` from `fetch_x_trends.py`. -/
def dedupe (items : List Item) : List Item := dedupeAux [] items

/-- `_filter_excluded`: drop items whose lower-cased text contains any
exclude keyword (the keyword list is already lower-cased by
`_load_exclude_keywords`). -/
def filterExcluded (items : List Item) (excludeKeywords : List String) : List Item :=
  if excludeKeywords = [] then items
  else items.filter fun item =>
    ! excludeKeywords.any fun k =>
      decide (pyContains (pyLower (pyOrDefault item.text "")) k)

/-- Python `s.replace("Z", "+00:00")` applied by `_filter_since` before
parsing. -/
def replaceZ : List Char → List Char
  | [] => []
  | c :: rest =>
    if c = 'Z' then "+00:00".data ++ replaceZ rest
    else c :: replaceZ rest

/-- The per-item keep decision of `_filter_since`.  `parse` stands for
`datetime.fromisoformat` (returning a UTC instant as an integer, `none`
on `ValueError`), and `cutoff` for `now - timedelta(hours=since_hours)`. -/
def keepSince (parse : String → Option Int) (cutoff : Int) (item : Item) : Bool :=
  match item.created_at with
  | none => false
  | some s =>
    if s = "" then false
    else
      match parse ⟨replaceZ s.data⟩ with
      | none => false
      | some t => decide (cutoff ≤ t)

/-- `_filter_since` from `fetch_x_trends.py`. -/
def filterSince (parse : String → Option Int) (cutoff : Int) (items : List Item) : List Item :=
  items.filter (keepSince parse cutoff)

/-- The source label used by `_source_weight`:
`(item.get("source") or item.get("author") or "").lower()`. -/
def sourceLabel (item : Item) : String :=
  pyLower (pyOrDefault item.source item.author)

/-- The official-organization keywords of `_source_weight`. -/
def officialKeywords : List String :=
  ["openai", "anthropic", "deepmind", "google", "microsoft", "cohere", "hugging face"]

/-- `_source_weight` from `fetch_x_trends.py`. -/
def sourceWeight (item : Item) : Nat :=
  let source := sourceLabel item
  if pyContains source "karpathy" then 3
  else if officialKeywords.any fun key => decide (pyContains source key) then 2
  else if pyContains source "arxiv" then 0
  else 1

/-- Lexicographic order on the `(number, string)` sort keys, matching
Python tuple comparison with strings compared by code point. -/
def lexLe (x y : Nat × List Char) : Prop :=
  x.1 < y.1 ∨ (x.1 = y.1 ∧ x.2 ≤ y.2)

instance (x y : Nat × List Char) : Decidable (lexLe x y) := by
  unfold lexLe; infer_instance

/-- Sort key of keywords mode:
`(i["engagement_score"], i.get("created_at") or "")`. -/
def kwKey (i : Item) : Nat × List Char :=
  (i.engagement_score, (pyOrDefault i.created_at "").data)

/-- `a` may precede `b` in the keywords-mode descending stable sort. -/
def kwRel (a b : Item) : Prop := lexLe (kwKey b) (kwKey a)

instance (a b : Item) : Decidable (kwRel a b) := by
  unfold kwRel; infer_instance

/-- Sort key of accounts mode: `i.get("created_at") or ""`. -/
def accKey (i : Item) : List Char := (pyOrDefault i.created_at "").data

/-- `a` may precede `b` in the accounts-mode descending stable sort. -/
def accRel (a b : Item) : Prop := accKey b ≤ accKey a

instance (a b : Item) : Decidable (accRel a b) := by
  unfold accRel; infer_instance

/-- Sort key of feeds mode: `(_source_weight(i), i.get("created_at") or "")`. -/
def feedsKey (i : Item) : Nat × List Char :=
  (sourceWeight i, (pyOrDefault i.created_at "").data)

/-- `a` may precede `b` in the feeds-mode descending stable sort. -/
def feedsRel (a b : Item) : Prop := lexLe (feedsKey b) (feedsKey a)

instance (a b : Item) : Decidable (feedsRel a b) := by
  unfold feedsRel; infer_instance

/-- Python `items.sort(key=…, reverse=True)` in keywords mode: a stable
sort placing larger keys first. -/
def kwSort (items : List Item) : List Item := List.insertionSort kwRel items

/-- The accounts-mode sort (`key=lambda i: i.get("created_at") or ""`,
`reverse=True`). -/
def accSort (items : List Item) : List Item := List.insertionSort accRel items

/-- The feeds-mode sort (`key=lambda i: (_source_weight(i), …)`,
`reverse=True`). -/
def feedsSort (items : List Item) : List Item := List.insertionSort feedsRel items

/-- The final truncation `items[: max(args.limit, 0)]` shared by the
three modes (`args.limit` is a Python `int`). -/
def truncateLimit (limit : Int) (items : List Item) : List Item :=
  items.take (max limit 0).toNat

/-- `public_metrics` of a tweet (`metrics.get(…, 0)` defaults are folded
into `Nat` fields; an absent dict is `none`). -/
structure Metrics where
  like_count : Nat
  retweet_count : Nat
  reply_count : Nat
  quote_count : Nat
deriving DecidableEq, Repr

/-- One element of `payload["data"]` as read by `_build_items`. -/
structure Tweet where
  id : Option String
  text : Option String
  author_id : Option String
  created_at : Option String
  public_metrics : Option Metrics
deriving DecidableEq, Repr

/-- One element of `payload["includes"]["users"]`. -/
structure User where
  id : Option String
  username : Option String
  name : Option String
deriving DecidableEq, Repr

/-- The decoded JSON response of the X API recent-search call. -/
structure Payload where
  data : List Tweet
  users : List User
  hasErrors : Bool
deriving DecidableEq, Repr

/-- The dict comprehension `{u.get("id"): u for u in users}` followed by
`users.get(author_id, {})`: the last user with a matching id wins. -/
def lookupUser (users : List User) (authorId : Option String) : Option User :=
  users.reverse.find? fun u => decide (u.id = authorId)

/-- Python f-string interpolation of `tweet.get('id')` (`None` renders
as the string `"None"`). -/
def fmtOptStr : Option String → String
  | some s => s
  | none => "None"

/-- The per-tweet record built by `_build_items`. -/
def buildItem (users : List User) (t : Tweet) : Item :=
  let metrics := t.public_metrics
  let engagement :=
    match metrics with
    | none => 0
    | some m => m.like_count + m.retweet_count + m.reply_count + m.quote_count
  let user := lookupUser users t.author_id
  let username := user.bind (·.username)
  let url :=
    match pyTruthy username with
    | some u => "https://x.com/" ++ u ++ "/status/" ++ fmtOptStr t.id
    | none => "https://x.com/i/web/status/" ++ fmtOptStr t.id
  { id := t.id
    text := t.text
    author := pyOrDefault (pyOr (user.bind (·.name)) username) "unknown"
    username := username
    url := some url
    created_at := t.created_at
    engagement_score := engagement
    source := none }

/-- `_build_items` from `fetch_x_trends.py`: map the tweets to records,
then sort by `(engagement_score, created_at or "")` descending. -/
def buildItems (payload : Payload) : List Item :=
  kwSort (payload.data.map (buildItem payload.users))

/-- The `items` list printed by keywords mode:
`_build_items(payload)[: max(args.limit, 0)]`. -/
def keywordsItems (payload : Payload) (limit : Int) : List Item :=
  truncateLimit limit (buildItems payload)

/-- The `items` list printed by accounts mode, starting from the items
accumulated over all account feeds: exclude-filter, time-filter, dedupe,
sort by recency, truncate. -/
def accountsItems (parse : String → Option Int) (cutoff : Int)
    (excludeKeywords : List String) (limit : Int) (fetched : List Item) : List Item :=
  truncateLimit limit
    (accSort (dedupe (filterSince parse cutoff (filterExcluded fetched excludeKeywords))))

/-- The `items` list printed by feeds mode: exclude-filter, time-filter,
dedupe, sort by `(source_weight, created_at)` descending, truncate. -/
def feedsItems (parse : String → Option Int) (cutoff : Int)
    (excludeKeywords : List String) (limit : Int) (fetched : List Item) : List Item :=
  truncateLimit limit
    (feedsSort (dedupe (filterSince parse cutoff (filterExcluded fetched excludeKeywords))))

/-- `_load_keywords` applied to the lines of the keywords file: strip
each line, skip blanks and `#` comments. -/
def loadKeywords (lines : List String) : List String :=
  lines.filterMap fun line =>
    let stripped := pyStrip line
    if stripped = "" ∨ startsWithHash stripped then none else some stripped

/-- `_quote_keyword`: drop `"` characters, strip, and wrap the remainder
in double quotes (empty result stays empty). -/
def quoteKeyword (keyword : String) : String :=
  let cleaned := pyStrip ⟨keyword.data.filter (fun c => c ≠ '"')⟩
  if cleaned = "" then "" else "\"" ++ cleaned ++ "\""

/-- Python `" OR ".join(quoted)`. -/
def joinOr : List String → String
  | [] => ""
  | [q] => q
  | q :: rest => q ++ " OR " ++ joinOr rest

/-- `_build_query` from `fetch_x_trends.py`. -/
def buildQuery (keywords : List String) : String :=
  let quoted := (keywords.filter fun k => pyStrip k ≠ "").map quoteKeyword
  let quoted := quoted.filter fun q => q ≠ ""
  if quoted = [] then ""
  else "(" ++ joinOr quoted ++ ") -is:retweet -is:reply"

/-- The candidate-count computation of keywords mode:
`max_results = max(50, args.limit * 5); max_results = min(100, max_results)`. -/
def maxResults (limit : Int) : Int :=
  min 100 (max 50 (limit * 5))

/-- The `--mode` choices of the fetcher. -/
inductive Mode where
  | auto
  | keywords
  | accounts
  | feeds
deriving DecidableEq, Repr

/-- The observable outcome of one fetcher run: process exit code, the
`error` field of the printed JSON (if any), and the `items` field (absent
for error payloads). -/
structure RunResult where
  exitCode : Int
  error : Option String
  items : Option (List Item)
deriving DecidableEq, Repr

/-- The keywords-mode branch of `main`, from query building to output.
`fetchResult` stands for the outcome of `_fetch_recent` (exception
message, or decoded payload). -/
def mainKeywords (keywordLines : List String) (limit : Int)
    (fetchResult : Except String Payload) : RunResult :=
  let keywords := loadKeywords keywordLines
  let query := buildQuery keywords
  if query = "" then
    { exitCode := 2
      error := some "Keyword list is empty. Add keywords to references/keywords.txt."
      items := none }
  else
    match fetchResult with
    | .error message => { exitCode := 3, error := some message, items := none }
    | .ok payload =>
      if payload.hasErrors then
        { exitCode := 3, error := some "X API returned errors.", items := none }
      else
        { exitCode := 0, error := none, items := some (keywordsItems payload limit) }

/-- The mode dispatch of `main`: the keywords branch runs exactly when
the mode is `auto` or `keywords` and a bearer token is present; otherwise
an explicit `accounts` mode runs the accounts branch, and everything else
falls through to the feeds branch. -/
def runFetch (mode : Mode) (tokenSet : Bool) (keywordLines : List String)
    (limit : Int) (fetchResult : Except String Payload)
    (accountsResult feedsResult : RunResult) : RunResult :=
  if (mode = Mode.auto ∨ mode = Mode.keywords) ∧ tokenSet then
    mainKeywords keywordLines limit fetchResult
  else if mode = Mode.accounts then accountsResult
  else feedsResult

/-- Scan for the first `>`; on success return the characters after it
(the continuation of a `<[^>]+>` regex match). -/
def untilGt : List Char → Option (List Char)
  | [] => none
  | c :: rest => if c = '>' then some rest else untilGt rest

/-- Given the characters after a `<`, match the rest of the regex
`<[^>]+>`: at least one non-`>` character, then `>`.  Returns the
remainder after the whole match, or `none` when the regex does not match
at this position. -/
def matchTagEnd : List Char → Option (List Char)
  | [] => none
  | c :: rest => if c = '>' then none else untilGt rest

theorem untilGt_length : ∀ (l rem : List Char), untilGt l = some rem → rem.length < l.length := by
  intro l
  induction l with
  | nil => intro rem h; simp [untilGt] at h
  | cons c rest ih =>
    intro rem h
    by_cases hc : c = '>'
    · simp [untilGt, hc] at h
      subst h
      simp
    · simp [untilGt, hc] at h
      exact Nat.lt_succ_of_lt (ih rem h)

theorem matchTagEnd_length (l rem : List Char) (h : matchTagEnd l = some rem) :
    rem.length < l.length := by
  match l with
  | [] => simp [matchTagEnd] at h
  | c :: rest =>
    by_cases hc : c = '>'
    · simp [matchTagEnd, hc] at h
    · simp [matchTagEnd, hc] at h
      exact Nat.lt_succ_of_lt (untilGt_length rest rem h)

/-- Left-to-right application of `re.sub(r"<[^>]+>", "", …)`: each
position starting `<` that completes a tag match is removed, everything
else is kept. -/
def stripTagsCore (l : List Char) : List Char :=
  match l with
  | [] => []
  | c :: rest =>
    if c = '<' then
      match h : matchTagEnd rest with
      | some rem => stripTagsCore rem
      | none => c :: stripTagsCore rest
    else c :: stripTagsCore rest
termination_by l.length
decreasing_by
  · exact Nat.lt_succ_of_lt (matchTagEnd_length rest rem h)
  · simp
  · simp

/-- `_strip_tags` from `publish_wechat_article.py`: remove tags, unescape
HTML entities (`html.unescape`, kept abstract), strip whitespace. -/
def stripTags (unescape : String → String) (html : String) : String :=
  pyStrip (unescape ⟨stripTagsCore html.data⟩)

/-- `_build_digest` from `publish_wechat_article.py` (called with
`max_len=80`): the stripped text if it fits, else its first
`max_len - 1` characters followed by `…`. -/
def buildDigest (unescape : String → String) (html : String) (maxLen : Nat) : String :=
  let text := stripTags unescape html
  if text.length ≤ maxLen then text
  else ⟨text.data.take (maxLen - 1) ++ ['…']⟩

theorem lexLe_total (x y : Nat × List Char) : lexLe x y ∨ lexLe y x := by
  unfold lexLe
  rcases Nat.lt_trichotomy x.1 y.1 with h | h | h
  · exact Or.inl (Or.inl h)
  · rcases le_total x.2 y.2 with h2 | h2
    · exact Or.inl (Or.inr ⟨h, h2⟩)
    · exact Or.inr (Or.inr ⟨h.symm, h2⟩)
  · exact Or.inr (Or.inl h)

theorem lexLe_trans {x y z : Nat × List Char} (h1 : lexLe x y) (h2 : lexLe y z) : lexLe x z := by
  unfold lexLe at h1 h2 ⊢
  rcases h1 with h1 | ⟨e1, l1⟩
  · rcases h2 with h2 | ⟨e2, l2⟩
    · exact Or.inl (h1.trans h2)
    · exact Or.inl (e2 ▸ h1)
  · rcases h2 with h2 | ⟨e2, l2⟩
    · exact Or.inl (e1 ▸ h2)
    · exact Or.inr ⟨e1.trans e2, l1.trans l2⟩

instance : IsTotal Item kwRel := ⟨fun a b => lexLe_total (kwKey b) (kwKey a)⟩

instance : IsTrans Item kwRel := ⟨fun _ _ _ h1 h2 => lexLe_trans h2 h1⟩

instance : IsTotal Item accRel := ⟨fun a b => le_total (accKey b) (accKey a)⟩

instance : IsTrans Item accRel := ⟨fun _ _ _ h1 h2 => le_trans h2 h1⟩

instance : IsTotal Item feedsRel := ⟨fun a b => lexLe_total (feedsKey b) (feedsKey a)⟩

instance : IsTrans Item feedsRel := ⟨fun _ _ _ h1 h2 => lexLe_trans h2 h1⟩

theorem dedupeAux_cons_none {i : Item} (seen : List String) (rest : List Item)
    (h : itemKey i = none) : dedupeAux seen (i :: rest) = dedupeAux seen rest := by
  simp [dedupeAux, h]

theorem dedupeAux_cons_mem {i : Item} {k : String} {seen : List String} (rest : List Item)
    (h : itemKey i = some k) (hm : k ∈ seen) :
    dedupeAux seen (i :: rest) = dedupeAux seen rest := by
  simp [dedupeAux, h, hm]

theorem dedupeAux_cons_new {i : Item} {k : String} {seen : List String} (rest : List Item)
    (h : itemKey i = some k) (hm : k ∉ seen) :
    dedupeAux seen (i :: rest) = i :: dedupeAux (k :: seen) rest := by
  simp [dedupeAux, h, hm]

theorem dedupeAux_sublist (l : List Item) : ∀ seen, (dedupeAux seen l).Sublist l := by
  induction l with
  | nil => intro seen; simp [dedupeAux]
  | cons i rest ih =>
    intro seen
    cases hk : itemKey i with
    | none =>
      rw [dedupeAux_cons_none seen rest hk]
      exact (ih seen).cons i
    | some k =>
      by_cases hs : k ∈ seen
      · rw [dedupeAux_cons_mem rest hk hs]
        exact (ih seen).cons i
      · rw [dedupeAux_cons_new rest hk hs]
        exact (ih (k :: seen)).cons₂ i

theorem mem_dedupeAux (l : List Item) :
    ∀ seen i, i ∈ dedupeAux seen l → ∃ k, itemKey i = some k ∧ k ∉ seen := by
  induction l with
  | nil => intro seen i h; simp [dedupeAux] at h
  | cons j rest ih =>
    intro seen i h
    cases hk : itemKey j with
    | none =>
      rw [dedupeAux_cons_none seen rest hk] at h
      exact ih seen i h
    | some k =>
      by_cases hs : k ∈ seen
      · rw [dedupeAux_cons_mem rest hk hs] at h
        exact ih seen i h
      · rw [dedupeAux_cons_new rest hk hs] at h
        rcases List.mem_cons.mp h with rfl | h2
        · exact ⟨k, hk, hs⟩
        · rcases ih (k :: seen) i h2 with ⟨k2, hk2, hs2⟩
          exact ⟨k2, hk2, fun hmem => hs2 (List.mem_cons_of_mem _ hmem)⟩

theorem dedupeAux_idem (l : List Item) :
    ∀ seen, dedupeAux seen (dedupeAux seen l) = dedupeAux seen l := by
  induction l with
  | nil => intro seen; rfl
  | cons i rest ih =>
    intro seen
    cases hk : itemKey i with
    | none =>
      rw [dedupeAux_cons_none seen rest hk, ih seen]
    | some k =>
      by_cases hs : k ∈ seen
      · rw [dedupeAux_cons_mem rest hk hs, ih seen]
      · rw [dedupeAux_cons_new rest hk hs,
          dedupeAux_cons_new (dedupeAux (k :: seen) rest) hk hs, ih (k :: seen)]

theorem dedupeAux_pairwise (l : List Item) :
    ∀ seen, (dedupeAux seen l).Pairwise (fun a b => itemKey a ≠ itemKey b) := by
  induction l with
  | nil => intro seen; simp [dedupeAux]
  | cons i rest ih =>
    intro seen
    cases hk : itemKey i with
    | none =>
      rw [dedupeAux_cons_none seen rest hk]
      exact ih seen
    | some k =>
      by_cases hs : k ∈ seen
      · rw [dedupeAux_cons_mem rest hk hs]
        exact ih seen
      · rw [dedupeAux_cons_new rest hk hs]
        refine List.Pairwise.cons ?_ (ih (k :: seen))
        intro b hb
        rcases mem_dedupeAux rest (k :: seen) b hb with ⟨k2, hk2, hs2⟩
        rw [hk, hk2]
        intro he
        injection he with he2
        exact hs2 (he2 ▸ List.mem_cons_self k seen)

theorem dedupeAux_find (l : List Item) :
    ∀ seen k j, k ∉ seen →
      l.find? (fun i => decide (itemKey i = some k)) = some j → j ∈ dedupeAux seen l := by
  induction l with
  | nil => intro seen k j _ hf; simp at hf
  | cons i rest ih =>
    intro seen k j hks hf
    by_cases hik : itemKey i = some k
    · rw [List.find?_cons] at hf
      simp [hik] at hf
      cases hf
      rw [dedupeAux_cons_new rest hik hks]
      exact List.mem_cons_self i _
    · rw [List.find?_cons] at hf
      simp [hik] at hf
      cases hk2 : itemKey i with
      | none =>
        rw [dedupeAux_cons_none seen rest hk2]
        exact ih seen k j hks hf
      | some k2 =>
        by_cases hs : k2 ∈ seen
        · rw [dedupeAux_cons_mem rest hk2 hs]
          exact ih seen k j hks hf
        · rw [dedupeAux_cons_new rest hk2 hs]
          refine List.mem_cons_of_mem i (ih (k2 :: seen) k j ?_ hf)
          intro hmem
          rcases List.mem_cons.mp hmem with rfl | hmem2
          · exact hik (hk2.trans rfl)
          · exact hks hmem2

theorem itemKey_eq_none {item : Item} (hu : item.url = none ∨ item.url = some "")
    (hi : item.id = none ∨ item.id = some "")
    (ht : item.text = none ∨ item.text = some "") : itemKey item = none := by
  unfold itemKey pyOr pyTruthy
  rcases hu with hu | hu <;> rcases hi with hi | hi <;> rcases ht with ht | ht <;>
    simp [hu, hi, ht]

/-- Claim C5: for every list of items, `_dedupe` is idempotent:
`_dedupe(_dedupe(xs)) = _dedupe(xs)`. -/
theorem dedupe_idempotent (items : List Item) : dedupe (dedupe items) = dedupe items :=
  dedupeAux_idem items []

/-- Claim C7: in keywords mode the candidate count requested from the
API equals `min(100, max(50, limit*5))` for every integer `limit`, and
is always between 50 and 100 inclusive. -/
theorem maxResults_eq (limit : Int) :
    maxResults limit = min 100 (max 50 (limit * 5)) ∧
      50 ≤ maxResults limit ∧ maxResults limit ≤ 100 := by
  refine ⟨rfl, ?_, ?_⟩
  · exact le_min (by norm_num) (le_max_left 50 (limit * 5))
  · exact min_le_left 100 _

/-- Claim C9: with a negative `--limit`, the output `items` list is
empty in all three modes, because every mode truncates with
`items[: max(args.limit, 0)]`. -/
theorem negative_limit_empty (limit : Int) (h : limit < 0) (payload : Payload)
    (parse : String → Option Int) (cutoff : Int) (ex : List String)
    (fetchedA fetchedF : List Item) :
    keywordsItems payload limit = [] ∧
      accountsItems parse cutoff ex limit fetchedA = [] ∧
      feedsItems parse cutoff ex limit fetchedF = [] := by
  have hz : (max limit 0).toNat = 0 := by
    have hm : max limit 0 = 0 := max_eq_right (le_of_lt h)
    rw [hm]; rfl
  refine ⟨?_, ?_, ?_⟩ <;>
    simp [keywordsItems, accountsItems, feedsItems, truncateLimit, hz]

theorem negative_limit_empty_witness :
    keywordsItems ⟨[], [], false⟩ (-1) = [] ∧
      accountsItems (fun _ => none) 0 [] (-1) [] = [] ∧
      feedsItems (fun _ => none) 0 [] (-1) [] = [] :=
  negative_limit_empty (-1) (by decide) ⟨[], [], false⟩ (fun _ => none) 0 [] [] []

/-- Claim C10: deduplication drops every item whose `url`, `id` and
`text` are all missing or empty (even without a duplicate), keeps the
first occurrence of each key, and preserves relative order (the result
is a sublist of the input). -/
theorem dedupe_characterization (items : List Item) :
    (dedupe items).Sublist items ∧
      (∀ item, (item.url = none ∨ item.url = some "") →
        (item.id = none ∨ item.id = some "") →
        (item.text = none ∨ item.text = some "") → item ∉ dedupe items) ∧
      (∀ k j, items.find? (fun i => decide (itemKey i = some k)) = some j →
        j ∈ dedupe items) := by
  refine ⟨dedupeAux_sublist items [], ?_, ?_⟩
  · intro item hu hi ht hmem
    rcases mem_dedupeAux items [] item hmem with ⟨k, hk, _⟩
    rw [itemKey_eq_none hu hi ht] at hk
    exact Option.noConfusion hk
  · intro k j hf
    exact dedupeAux_find items [] k j (by simp) hf

theorem dedupe_characterization_witness :
    (⟨none, some "", "x", none, none, none, 0, none⟩ : Item) ∉
        dedupe [⟨none, some "", "x", none, none, none, 0, none⟩,
          ⟨none, none, "x", none, some "u", none, 0, none⟩,
          ⟨none, none, "x", none, some "u", none, 0, none⟩] ∧
      (⟨none, none, "x", none, some "u", none, 0, none⟩ : Item) ∈
        dedupe [⟨none, some "", "x", none, none, none, 0, none⟩,
          ⟨none, none, "x", none, some "u", none, 0, none⟩,
          ⟨none, none, "x", none, some "u", none, 0, none⟩] := by
  have h := dedupe_characterization [⟨none, some "", "x", none, none, none, 0, none⟩,
    ⟨none, none, "x", none, some "u", none, 0, none⟩,
    ⟨none, none, "x", none, some "u", none, 0, none⟩]
  exact ⟨h.2.1 _ (Or.inl rfl) (Or.inl rfl) (Or.inr rfl), h.2.2 "u" _ (by decide)⟩

theorem keepSince_eq_true_iff (parse : String → Option Int) (cutoff : Int) (item : Item) :
    keepSince parse cutoff item = true ↔
      ∃ s, item.created_at = some s ∧ s ≠ "" ∧
        ∃ t, parse ⟨replaceZ s.data⟩ = some t ∧ cutoff ≤ t := by
  unfold keepSince
  cases hca : item.created_at with
  | none => simp
  | some s =>
    by_cases hs : s = ""
    · subst hs; simp
    · cases hp : parse ⟨replaceZ s.data⟩ with
      | none => simp [hs, hp]
      | some t => simp [hs, hp]

/-- Claim C4: the time-window filter keeps an item exactly when its
`created_at` is present, non-empty, and parses (after the `Z` → `+00:00`
rewrite) to an instant at or after the cutoff; items with a missing,
empty, or unparseable `created_at` are excluded for every cutoff.
`parse` abstracts `datetime.fromisoformat`. -/
theorem filterSince_mem_iff (parse : String → Option Int) (cutoff : Int)
    (items : List Item) (item : Item) :
    item ∈ filterSince parse cutoff items ↔
      item ∈ items ∧ ∃ s, item.created_at = some s ∧ s ≠ "" ∧
        ∃ t, parse ⟨replaceZ s.data⟩ = some t ∧ cutoff ≤ t := by
  rw [filterSince, List.mem_filter, keepSince_eq_true_iff]

/-- Claim C2: in keywords mode the built list is ordered so that, for
every earlier item `a` and later item `b`, either `b` scores strictly
less engagement, or they tie and `b`'s `created_at` key is at most
`a`'s (so strictly higher engagement always comes first and ties are
broken by recency); the printed list is the truncation of that order. -/
theorem keywords_ranking (payload : Payload) (limit : Int) :
    (buildItems payload).Pairwise (fun a b =>
        b.engagement_score < a.engagement_score ∨
          (b.engagement_score = a.engagement_score ∧
            (pyOrDefault b.created_at "").data ≤ (pyOrDefault a.created_at "").data)) ∧
      keywordsItems payload limit = (buildItems payload).take (max limit 0).toNat := by
  constructor
  · exact (List.sorted_insertionSort kwRel (payload.data.map (buildItem payload.users))).imp
      (fun h => h)
  · rfl

/-- Claim C1 (amended): in accounts and feeds modes no two items of the
output batch share a deduplication key; in keywords mode, which never
deduplicates, this holds only provided the items built from the API
payload already have pairwise distinct keys. -/
theorem batch_keys_unique (parse : String → Option Int) (cutoff : Int) (ex : List String)
    (limit : Int) (fetched : List Item) (payload : Payload) :
    (accountsItems parse cutoff ex limit fetched).Pairwise
        (fun a b => itemKey a ≠ itemKey b) ∧
      (feedsItems parse cutoff ex limit fetched).Pairwise
        (fun a b => itemKey a ≠ itemKey b) ∧
      ((buildItems payload).Pairwise (fun a b => itemKey a ≠ itemKey b) →
        (keywordsItems payload limit).Pairwise (fun a b => itemKey a ≠ itemKey b)) := by
  have hsymm : ∀ {x y : Item}, itemKey x ≠ itemKey y → itemKey y ≠ itemKey x :=
    fun h => Ne.symm h
  refine ⟨?_, ?_, ?_⟩
  · have hd := dedupeAux_pairwise (filterSince parse cutoff (filterExcluded fetched ex)) []
    have hperm := List.perm_insertionSort accRel
      (dedupe (filterSince parse cutoff (filterExcluded fetched ex)))
    have hs := (hperm.pairwise_iff hsymm).mpr hd
    exact List.Pairwise.sublist (List.take_sublist _ _) hs
  · have hd := dedupeAux_pairwise (filterSince parse cutoff (filterExcluded fetched ex)) []
    have hperm := List.perm_insertionSort feedsRel
      (dedupe (filterSince parse cutoff (filterExcluded fetched ex)))
    have hs := (hperm.pairwise_iff hsymm).mpr hd
    exact List.Pairwise.sublist (List.take_sublist _ _) hs
  · intro hp
    exact List.Pairwise.sublist (List.take_sublist _ _) hp

theorem batch_keys_unique_witness :
    (accountsItems (fun _ => none) 0 [] 5 []).Pairwise (fun a b => itemKey a ≠ itemKey b) ∧
      (feedsItems (fun _ => none) 0 [] 5 []).Pairwise (fun a b => itemKey a ≠ itemKey b) ∧
      (keywordsItems ⟨[], [], false⟩ 5).Pairwise (fun a b => itemKey a ≠ itemKey b) := by
  have h := batch_keys_unique (fun _ => none) 0 [] 5 [] ⟨[], [], false⟩
  exact ⟨h.1, h.2.1, h.2.2 (by decide)⟩

/-- Claim C1 counterexample: keywords mode never deduplicates, so a
payload carrying the same tweet twice yields an output batch whose two
items share the same deduplication key. -/
theorem batch_keys_unique_cx :
    (keywordsItems ⟨[⟨some "1", some "hello", none, some "2026-01-01T00:00:00.000Z", none⟩,
            ⟨some "1", some "hello", none, some "2026-01-01T00:00:00.000Z", none⟩], [],
          false⟩ 10).map itemKey =
        [some "https://x.com/i/web/status/1", some "https://x.com/i/web/status/1"] ∧
      ¬ (keywordsItems ⟨[⟨some "1", some "hello", none, some "2026-01-01T00:00:00.000Z", none⟩,
            ⟨some "1", some "hello", none, some "2026-01-01T00:00:00.000Z", none⟩], [],
          false⟩ 10).Pairwise (fun a b => itemKey a ≠ itemKey b) := by
  constructor
  · decide
  · decide

theorem sourceWeight_karpathy {item : Item}
    (h : pyContains (sourceLabel item) "karpathy") : sourceWeight item = 3 := by
  simp [sourceWeight, h]

theorem sourceWeight_official {item : Item}
    (h1 : ¬ pyContains (sourceLabel item) "karpathy")
    (h2 : ∃ key ∈ officialKeywords, pyContains (sourceLabel item) key) :
    sourceWeight item = 2 := by
  have hany : (officialKeywords.any fun key =>
      decide (pyContains (sourceLabel item) key)) = true := by
    rcases h2 with ⟨key, hk1, hk2⟩
    exact List.any_eq_true.mpr ⟨key, hk1, decide_eq_true hk2⟩
  simp [sourceWeight, h1, hany]

theorem sourceWeight_arxiv {item : Item}
    (h1 : ¬ pyContains (sourceLabel item) "karpathy")
    (h2 : ¬ ∃ key ∈ officialKeywords, pyContains (sourceLabel item) key)
    (h3 : pyContains (sourceLabel item) "arxiv") : sourceWeight item = 0 := by
  have hany : (officialKeywords.any fun key =>
      decide (pyContains (sourceLabel item) key)) = false := by
    rw [List.any_eq_false]
    intro key hk
    simpa using fun hc => h2 ⟨key, hk, hc⟩
  simp [sourceWeight, h1, hany, h3]

theorem sourceWeight_default {item : Item}
    (h1 : ¬ pyContains (sourceLabel item) "karpathy")
    (h2 : ¬ ∃ key ∈ officialKeywords, pyContains (sourceLabel item) key)
    (h3 : ¬ pyContains (sourceLabel item) "arxiv") : sourceWeight item = 1 := by
  have hany : (officialKeywords.any fun key =>
      decide (pyContains (sourceLabel item) key)) = false := by
    rw [List.any_eq_false]
    intro key hk
    simpa using fun hc => h2 ⟨key, hk, hc⟩
  simp [sourceWeight, h1, hany, h3]

/-- Claim C3 (amended): `_source_weight` applies its rules in priority
order — a source containing "karpathy" gets 3 even before the
official-organization check, an official match gets 2 only when
"karpathy" is absent, and "arxiv" gives 0 only when neither earlier rule
fires, everything else getting 1.  For four items in those effective
categories with equal `created_at`, the feeds-mode sort orders them by
descending weight. -/
theorem feeds_ranking_amended (a b c d : Item)
    (hcb : b.created_at = a.created_at) (hcc : c.created_at = a.created_at)
    (hcd : d.created_at = a.created_at)
    (hak : pyContains (sourceLabel a) "karpathy")
    (hbo : ∃ key ∈ officialKeywords, pyContains (sourceLabel b) key)
    (hbk : ¬ pyContains (sourceLabel b) "karpathy")
    (hck : ¬ pyContains (sourceLabel c) "karpathy")
    (hco : ¬ ∃ key ∈ officialKeywords, pyContains (sourceLabel c) key)
    (hcx : ¬ pyContains (sourceLabel c) "arxiv")
    (hda : pyContains (sourceLabel d) "arxiv")
    (hdk : ¬ pyContains (sourceLabel d) "karpathy")
    (hdo : ¬ ∃ key ∈ officialKeywords, pyContains (sourceLabel d) key) :
    sourceWeight a = 3 ∧ sourceWeight b = 2 ∧ sourceWeight c = 1 ∧ sourceWeight d = 0 ∧
      feedsSort [d, c, b, a] = [a, b, c, d] := by
  have wa := sourceWeight_karpathy hak
  have wb := sourceWeight_official hbk hbo
  have wc := sourceWeight_default hck hco hcx
  have wd := sourceWeight_arxiv hdk hdo hda
  refine ⟨wa, wb, wc, wd, ?_⟩
  have ka : feedsKey a = (3, (pyOrDefault a.created_at "").data) := by
    simp [feedsKey, wa]
  have kb : feedsKey b = (2, (pyOrDefault a.created_at "").data) := by
    simp [feedsKey, wb, hcb]
  have kc : feedsKey c = (1, (pyOrDefault a.created_at "").data) := by
    simp [feedsKey, wc, hcc]
  have kd : feedsKey d = (0, (pyOrDefault a.created_at "").data) := by
    simp [feedsKey, wd, hcd]
  simp [feedsSort, feedsRel, ka, kb, kc, kd, lexLe]

theorem feeds_ranking_amended_witness :
    sourceWeight ⟨none, none, "", none, none, some "2026-01-01T00:00:00+00:00", 0,
        some "Andrej Karpathy"⟩ = 3 ∧
      sourceWeight ⟨none, none, "", none, none, some "2026-01-01T00:00:00+00:00", 0,
        some "OpenAI"⟩ = 2 ∧
      sourceWeight ⟨none, none, "", none, none, some "2026-01-01T00:00:00+00:00", 0,
        some "Random Blog"⟩ = 1 ∧
      sourceWeight ⟨none, none, "", none, none, some "2026-01-01T00:00:00+00:00", 0,
        some "arXiv"⟩ = 0 ∧
      feedsSort [⟨none, none, "", none, none, some "2026-01-01T00:00:00+00:00", 0,
          some "arXiv"⟩,
        ⟨none, none, "", none, none, some "2026-01-01T00:00:00+00:00", 0,
          some "Random Blog"⟩,
        ⟨none, none, "", none, none, some "2026-01-01T00:00:00+00:00", 0,
          some "OpenAI"⟩,
        ⟨none, none, "", none, none, some "2026-01-01T00:00:00+00:00", 0,
          some "Andrej Karpathy"⟩] =
      [⟨none, none, "", none, none, some "2026-01-01T00:00:00+00:00", 0,
          some "Andrej Karpathy"⟩,
        ⟨none, none, "", none, none, some "2026-01-01T00:00:00+00:00", 0,
          some "OpenAI"⟩,
        ⟨none, none, "", none, none, some "2026-01-01T00:00:00+00:00", 0,
          some "Random Blog"⟩,
        ⟨none, none, "", none, none, some "2026-01-01T00:00:00+00:00", 0,
          some "arXiv"⟩] :=
  feeds_ranking_amended
    ⟨none, none, "", none, none, some "2026-01-01T00:00:00+00:00", 0, some "Andrej Karpathy"⟩
    ⟨none, none, "", none, none, some "2026-01-01T00:00:00+00:00", 0, some "OpenAI"⟩
    ⟨none, none, "", none, none, some "2026-01-01T00:00:00+00:00", 0, some "Random Blog"⟩
    ⟨none, none, "", none, none, some "2026-01-01T00:00:00+00:00", 0, some "arXiv"⟩
    rfl rfl rfl (by decide) (by decide) (by decide) (by decide) (by decide) (by decide)
    (by decide) (by decide) (by decide)

/-- Claim C3 counterexample: a source containing both an official-org
keyword and "arxiv" is weighted 2, not 0, and (with equal `created_at`)
sorts before an unweighted source, contradicting the claimed order. -/
theorem feeds_ranking_cx :
    pyContains (sourceLabel ⟨none, none, "", none, none,
        some "2026-01-01T00:00:00+00:00", 0, some "openai arxiv"⟩) "arxiv" ∧
      sourceWeight ⟨none, none, "", none, none,
        some "2026-01-01T00:00:00+00:00", 0, some "openai arxiv"⟩ = 2 ∧
      sourceWeight ⟨none, none, "", none, none,
        some "2026-01-01T00:00:00+00:00", 0, some "randomblog"⟩ = 1 ∧
      feedsSort [⟨none, none, "", none, none,
          some "2026-01-01T00:00:00+00:00", 0, some "randomblog"⟩,
        ⟨none, none, "", none, none,
          some "2026-01-01T00:00:00+00:00", 0, some "openai arxiv"⟩] =
      [⟨none, none, "", none, none,
          some "2026-01-01T00:00:00+00:00", 0, some "openai arxiv"⟩,
        ⟨none, none, "", none, none,
          some "2026-01-01T00:00:00+00:00", 0, some "randomblog"⟩] := by
  refine ⟨by decide, by decide, by decide, by decide⟩

theorem buildQuery_eq_empty {kws : List String} (h : ∀ k ∈ kws, quoteKeyword k = "") :
    buildQuery kws = "" := by
  have hnil : (((kws.filter fun k => pyStrip k ≠ "").map quoteKeyword).filter
      fun q => q ≠ "") = [] := by
    rw [List.filter_eq_nil_iff]
    intro q hq
    rcases List.mem_map.mp hq with ⟨k, hk, rfl⟩
    simp [h k (List.mem_of_mem_filter hk)]
  show (if (((kws.filter fun k => pyStrip k ≠ "").map quoteKeyword).filter
        fun q => q ≠ "") = [] then ""
      else "(" ++ joinOr (((kws.filter fun k => pyStrip k ≠ "").map quoteKeyword).filter
        fun q => q ≠ "") ++ ") -is:retweet -is:reply") = ""
  rw [hnil]
  simp

/-- Claim C6: with a bearer token set and mode `keywords` (or `auto`),
a keyword list that is empty or yields no usable quoted keyword makes
the run exit with code 2 and print a structured error payload mentioning
the empty keyword list, with no items. -/
theorem empty_keywords_exit2 (mode : Mode) (tokenSet : Bool) (lines : List String)
    (limit : Int) (fetchResult : Except String Payload)
    (accountsResult feedsResult : RunResult)
    (hm : mode = Mode.auto ∨ mode = Mode.keywords) (ht : tokenSet = true)
    (hk : ∀ k ∈ loadKeywords lines, quoteKeyword k = "") :
    runFetch mode tokenSet lines limit fetchResult accountsResult feedsResult =
        { exitCode := 2
          error := some "Keyword list is empty. Add keywords to references/keywords.txt."
          items := none } ∧
      pyContains "Keyword list is empty. Add keywords to references/keywords.txt."
        "empty" := by
  subst ht
  have hq := buildQuery_eq_empty hk
  refine ⟨?_, by decide⟩
  rcases hm with rfl | rfl <;> simp [runFetch, mainKeywords, hq]

theorem empty_keywords_exit2_witness :
    runFetch Mode.keywords true ["# comment only", "   "] 10 (Except.error "net down")
        ⟨0, none, none⟩ ⟨0, none, none⟩ =
        { exitCode := 2
          error := some "Keyword list is empty. Add keywords to references/keywords.txt."
          items := none } ∧
      pyContains "Keyword list is empty. Add keywords to references/keywords.txt."
        "empty" :=
  empty_keywords_exit2 Mode.keywords true ["# comment only", "   "] 10
    (Except.error "net down") ⟨0, none, none⟩ ⟨0, none, none⟩ (Or.inr rfl) rfl (by decide)

/-- Claim C8: the digest equals the tag-stripped, entity-unescaped,
whitespace-trimmed text when that text has at most 80 characters, and
otherwise its first 79 characters followed by the ellipsis character;
consequently the digest never exceeds 80 characters.  `unescape`
abstracts `html.unescape`. -/
theorem digest_spec (unescape : String → String) (html : String) :
    buildDigest unescape html 80 =
        (if (stripTags unescape html).length ≤ 80 then stripTags unescape html
         else ⟨(stripTags unescape html).data.take 79 ++ ['…']⟩) ∧
      (buildDigest unescape html 80).length ≤ 80 := by
  constructor
  · rfl
  · by_cases h : (stripTags unescape html).length ≤ 80
    · have heq : buildDigest unescape html 80 = stripTags unescape html := by
        simp [buildDigest, h]
      rw [heq]
      exact h
    · have heq : buildDigest unescape html 80 =
          ⟨(stripTags unescape html).data.take 79 ++ ['…']⟩ := by
        simp [buildDigest, h]
      rw [heq]
      show ((stripTags unescape html).data.take 79 ++ ['…']).length ≤ 80
      rw [List.length_append]
      have h1 : ((stripTags unescape html).data.take 79).length ≤ 79 :=
        List.length_take_le 79 _
      simp only [List.length_singleton]
      omega
